import Mathlib

/-!
Shallow embedding of the core of `better_tactics` (a chess-tactics spaced
repetition trainer written in Rust), together with theorems checking the
natural-language specification against the code.

Modelling conventions:
* `chrono::Duration` and `chrono::DateTime` values are modelled as integer
  numbers of seconds (`Int`); the code itself only ever compares, adds and
  clamps them at seconds granularity.
* Rust `f64` quantities (`ease`, the config bounds, the easy bonus) are
  modelled as exact rationals (`ℚ`); every theorem proved below depends only
  on the order structure of `max`/`min`/comparison shared by both, never on
  rounding behaviour.
* Fallible operations are modelled with `Option`; a database write is
  modelled as the value written.
-/

namespace BetterTactics

/-- Review difficulties, from `src/srs.rs` (`enum Difficulty`). -/
inductive Difficulty : Type where
  | Again : Difficulty
  | Hard : Difficulty
  | Good : Difficulty
  | Easy : Difficulty
deriving DecidableEq

/-- Conversion of a difficulty to its stored integer, `Difficulty::to_i64`. -/
def Difficulty.to_i64 : Difficulty → Int
  | .Again => 0
  | .Hard => 1
  | .Good => 2
  | .Easy => 3

/-- Conversion of a stored integer to a difficulty, `Difficulty::from_i64`;
the `Err` case of the Rust `Result` is modelled as `none`. -/
def Difficulty.from_i64 (value : Int) : Option Difficulty :=
  if value = 0 then some .Again
  else if value = 1 then some .Hard
  else if value = 2 then some .Good
  else if value = 3 then some .Easy
  else none

/-- The initial intervals for new cards, `INITIAL_INTERVALS` in `src/srs.rs`:
ten minutes and twenty-four hours, in seconds. -/
def INITIAL_INTERVALS : List Int := [10 * 60, 24 * 60 * 60]

/-- The interval cap `MAX_INTERVAL` (52179 weeks), in seconds. -/
def MAX_INTERVAL : Int := 52179 * 7 * 24 * 60 * 60

/-- The floor for `Easy` intervals, `MIN_EASY_INTERVAL` (4 days), in seconds. -/
def MIN_EASY_INTERVAL : Int := 4 * 24 * 60 * 60

/-- Spaced repetition config, `SrsConfig` in `src/srs.rs`. The `day_end_hour`
and `review_order` fields are not needed by the pure card functions below and
the latter is kept for the review-selection spec. -/
structure SrsConfig : Type where
  default_ease : ℚ
  minimum_ease : ℚ
  easy_bonus : ℚ
deriving DecidableEq

/-- Reviewing order, `ReviewOrder` in `src/srs.rs`. -/
inductive ReviewOrder : Type where
  | DueTime : ReviewOrder
  | PuzzleRating : ReviewOrder
  | Random : ReviewOrder
deriving DecidableEq

/-- A single spaced repetition card, `Card` in `src/srs.rs`. Time is in
seconds; `ease` is the `f64` ease modelled as a rational. -/
structure Card : Type where
  id : String
  due : Int
  interval : Int
  review_count : Int
  ease : ℚ
  learning_stage : Int
  srs_config : SrsConfig
deriving DecidableEq

/-- Constructor for a fresh card, `Card::new`. -/
def Card.new (id : String) (due : Int) (srs_config : SrsConfig) : Card :=
  { id := id
    due := due
    interval := INITIAL_INTERVALS.getD 0 0
    review_count := 0
    ease := srs_config.default_ease
    learning_stage := 0
    srs_config := srs_config }

/-- Truncation of a rational toward zero, the semantics of Rust `as i64`
applied to an `f64`. All uses below are on non-negative values, where this
agrees with the floor. -/
def truncToInt (x : ℚ) : Int :=
  if 0 ≤ x then ⌊x⌋ else ⌈x⌉

/-- Multiplication of a duration (seconds) by a factor, `Card::mul_duration`:
the seconds are multiplied as `f64` and cast back with `as i64`. -/
def mul_duration (duration : Int) (multiplier : ℚ) : Int :=
  truncToInt ((duration : ℚ) * multiplier)

/-- Check whether the card is in the learning state, `Card::in_learning`:
`learning_stage < INITIAL_INTERVALS.len() && interval <=
INITIAL_INTERVALS[learning_stage]`. -/
def Card.in_learning (c : Card) : Prop :=
  c.learning_stage < 2 ∧ c.interval ≤ INITIAL_INTERVALS.getD c.learning_stage.toNat 0

instance (c : Card) : Decidable c.in_learning := by
  unfold Card.in_learning
  infer_instance

/-- Next interval for an `Again` review, from `Card::next_interval`: always
`INITIAL_INTERVALS[0]`. -/
def Card.next_interval_again (_c : Card) : Int :=
  INITIAL_INTERVALS.getD 0 0

/-- Next interval for a `Hard` review, from `Card::next_interval`:
`interval.min(MAX_INTERVAL).max(next_interval(Again))`. -/
def Card.next_interval_hard (c : Card) : Int :=
  max (min c.interval MAX_INTERVAL) c.next_interval_again

/-- Next interval for a `Good` review, from `Card::next_interval`: the
learning-stage interval while in learning, otherwise
`mul_duration(interval, ease).max(INITIAL_INTERVALS.last).min(MAX_INTERVAL).max(next_interval(Hard))`. -/
def Card.next_interval_good (c : Card) : Int :=
  if c.in_learning then
    INITIAL_INTERVALS.getD c.learning_stage.toNat 0
  else
    max (min (max (mul_duration c.interval c.ease) (INITIAL_INTERVALS.getD 1 0))
      MAX_INTERVAL) c.next_interval_hard

/-- Next interval for an `Easy` review, from `Card::next_interval`:
`mul_duration(interval, ease * easy_bonus).max(MIN_EASY_INTERVAL).min(MAX_INTERVAL).max(next_interval(Good))`. -/
def Card.next_interval_easy (c : Card) : Int :=
  max (min (max (mul_duration c.interval (c.ease * c.srs_config.easy_bonus))
    MIN_EASY_INTERVAL) MAX_INTERVAL) c.next_interval_good

/-- Next interval after a review, `Card::next_interval`. The Rust function
recursively references the lower grades; the recursion is unfolded into the
four helper definitions above. -/
def Card.next_interval (c : Card) : Difficulty → Int
  | .Again => c.next_interval_again
  | .Hard => c.next_interval_hard
  | .Good => c.next_interval_good
  | .Easy => c.next_interval_easy

/-- The ease update performed at the end of `Card::review`:
`f64::max(minimum_ease, match score ...)`. -/
def reviewEase (cfg : SrsConfig) (ease : ℚ) : Difficulty → ℚ
  | .Again => max cfg.minimum_ease (ease - 0.2)
  | .Hard => max cfg.minimum_ease (ease - 0.15)
  | .Easy => max cfg.minimum_ease (ease + 0.15)
  | .Good => max cfg.minimum_ease
      (if ease < cfg.default_ease then min cfg.default_ease (ease + 0.15) else ease)

/-- Review of a card, `Card::review`: the interval and due date are updated
first, then the learning stage is updated — re-evaluating `in_learning` on the
card that already carries the new interval, exactly as the Rust code does —
then the ease and the review count. -/
def Card.review (c : Card) (time_now : Int) (score : Difficulty) : Card :=
  let interval := c.next_interval score
  let c1 : Card := { c with interval := interval, due := time_now + interval }
  let learning_stage : Int :=
    if score = .Again then 0
    else if c1.in_learning then
      if score = .Easy then 2 else c1.learning_stage + 1
    else c1.learning_stage
  { c1 with
    learning_stage := learning_stage
    ease := reviewEase c.srs_config c.ease score
    review_count := c1.review_count + 1 }

/-- Folding a sequence of reviews over a card, each with its own review time. -/
def Card.review_seq (c : Card) (l : List (Int × Difficulty)) : Card :=
  l.foldl (fun c p => c.review p.1 p.2) c

/-- The default SRS configuration from `SrsConfig::default`. -/
def defaultSrsConfig : SrsConfig :=
  { default_ease := 2.5, minimum_ease := 1.3, easy_bonus := 1.3 }

/-- A fresh card under the default config: `learning_stage = 0`,
`interval = 10 minutes`, so it is in learning. -/
def exampleLearningCard : Card :=
  Card.new "p1" 0 defaultSrsConfig

/-- A player's Glicko-2 rating triple, `Rating` in `src/rating.rs`. The same
shape is stored in the `users_v2` row (`rating`, `rating_deviation`,
`rating_volatility`), so it also models the stored row. The `f64` volatility
is modelled as a rational. -/
structure Rating : Type where
  rating : Int
  deviation : Int
  volatility : ℚ
deriving DecidableEq

/-- Database write of a user row, `PuzzleDatabase::update_user` in
`src/db/user.rs`: the SQL `UPDATE users_v2 SET rating = ?, rating_deviation =
? WHERE id = ?` writes the rating and the deviation of the given user; the
`rating_volatility` column is not part of the statement, so the stored
volatility keeps its previous value. -/
def update_user (row : Rating) (new : Rating) : Rating :=
  { row with rating := new.rating, deviation := new.deviation }

/-- Rating update with the Good-guard, `UserService::update_rating` in
`src/services/user_service.rs`. The Glicko-2 computation
`user.rating.update(vec![result])` is floating-point; its result is taken
here as the argument `computed`, and the theorems below quantify over it.
The function returns the row written by `db.update_user` when the guard
`difficulty != Good || new.rating > old.rating` passes, and `none` when the
update is discarded. -/
def update_rating_write (row : Rating) (difficulty : Difficulty) (computed : Rating) :
    Option Rating :=
  if difficulty ≠ .Good ∨ computed.rating > row.rating then
    some (update_user row computed)
  else
    none

/-- The stored user row after `update_rating`: the written row when the
update is persisted, the prior row when it is discarded. -/
def update_rating_applied (row : Rating) (difficulty : Difficulty) (computed : Rating) :
    Rating :=
  (update_rating_write row difficulty computed).getD row

/-- A review record, `Review` in `src/db/card.rs`. The RFC 3339 date is
modelled as seconds since the epoch. -/
structure Review : Type where
  user_id : String
  puzzle_id : String
  difficulty : Difficulty
  date : Int
  user_rating : Option Int
deriving DecidableEq

/-- A stored row of the `reviews` table, with the difficulty as its stored
integer. The RFC 3339 encode/parse round-trip of the date column is modelled
as the identity on seconds. -/
structure ReviewRow : Type where
  user_id : String
  puzzle_id : String
  difficulty : Int
  date : Int
  user_rating : Option Int
deriving DecidableEq

/-- The row written by `PuzzleDatabase::add_review_for_user` in
`src/db/card.rs`: `INSERT INTO reviews (user_id, puzzle_id, difficulty, date,
user_rating) VALUES (?, ?, ?, ?, ?)` bound in that order from the review. -/
def add_review_for_user (review : Review) : ReviewRow :=
  { user_id := review.user_id
    puzzle_id := review.puzzle_id
    difficulty := review.difficulty.to_i64
    date := review.date
    user_rating := review.user_rating }

/-- Decoding of a stored row, `impl FromRow for Review` in `src/db/card.rs`.
The source reads the `puzzle_id` field with `row.try_get("user_id")` — the
`user_id` column — which is reproduced here. A difficulty outside `0..=3`
fails the decode (`none`). -/
def Review.from_row (row : ReviewRow) : Option Review :=
  (Difficulty.from_i64 row.difficulty).map fun d =>
    { user_id := row.user_id
      puzzle_id := row.user_id
      difficulty := d
      date := row.date
      user_rating := row.user_rating }

/-- Encoding of a calendar date as an integer `y*10000 + m*100 + d`, to model
the `NaiveDate` values of the placeholder rating history. -/
def naiveDate (y m d : Nat) : Int :=
  (y : Int) * 10000 + (m : Int) * 100 + (d : Int)

/-- The hard-coded list returned by `UserService::get_rating_history` in
`src/services/user_service.rs` (the body is literally `// Placeholder data.`
followed by this list). -/
def ratingHistoryPlaceholder : List (Int × Int) :=
  [(naiveDate 2023 8 1, 1000), (naiveDate 2023 8 2, 1000), (naiveDate 2023 8 3, 1000),
   (naiveDate 2023 8 4, 1000), (naiveDate 2023 8 5, 1000), (naiveDate 2023 8 6, 1000),
   (naiveDate 2023 8 7, 1000), (naiveDate 2023 8 8, 1000), (naiveDate 2023 8 9, 1000),
   (naiveDate 2023 8 10, 1100), (naiveDate 2023 8 11, 1150), (naiveDate 2023 8 12, 1150),
   (naiveDate 2023 8 13, 1150), (naiveDate 2023 8 14, 1150), (naiveDate 2023 8 15, 1150),
   (naiveDate 2023 8 16, 1150), (naiveDate 2023 8 17, 1150), (naiveDate 2023 8 18, 1100),
   (naiveDate 2023 8 19, 1100), (naiveDate 2023 8 20, 1100), (naiveDate 2023 8 21, 1200),
   (naiveDate 2023 8 22, 1200), (naiveDate 2023 8 23, 1200), (naiveDate 2023 8 24, 1200),
   (naiveDate 2023 8 25, 1200), (naiveDate 2023 8 26, 1400), (naiveDate 2023 8 27, 1400),
   (naiveDate 2023 8 28, 1400), (naiveDate 2023 8 29, 1400), (naiveDate 2023 8 30, 1400),
   (naiveDate 2023 9 1, 1400), (naiveDate 2023 9 2, 1400), (naiveDate 2023 9 3, 1400),
   (naiveDate 2023 9 4, 1400), (naiveDate 2023 9 5, 1400), (naiveDate 2023 9 6, 1400),
   (naiveDate 2023 9 7, 1400), (naiveDate 2023 9 8, 1400), (naiveDate 2023 9 9, 1400),
   (naiveDate 2023 9 10, 1400), (naiveDate 2023 9 11, 1400), (naiveDate 2023 9 12, 1400),
   (naiveDate 2023 9 13, 1400), (naiveDate 2023 9 14, 1400), (naiveDate 2023 9 15, 1400),
   (naiveDate 2023 9 16, 1400), (naiveDate 2023 9 17, 1400), (naiveDate 2023 9 18, 1400),
   (naiveDate 2023 9 19, 1400), (naiveDate 2023 9 20, 1400), (naiveDate 2023 9 21, 1400),
   (naiveDate 2023 9 22, 1400), (naiveDate 2023 9 23, 1400), (naiveDate 2023 9 24, 1400),
   (naiveDate 2023 9 25, 1400), (naiveDate 2023 9 26, 1400), (naiveDate 2023 9 27, 1400),
   (naiveDate 2023 9 28, 1400), (naiveDate 2023 9 29, 1400), (naiveDate 2023 9 30, 1400),
   (naiveDate 2023 10 7, 1400), (naiveDate 2023 10 8, 1500), (naiveDate 2023 10 9, 1600),
   (naiveDate 2023 10 10, 1700)]

/-- The rating-history service call, `UserService::get_rating_history`:
after validating that the user is the local user it returns the placeholder
list above, independently of the stored reviews and of the user's rating
(`none` models the error for a non-local user id). -/
def get_rating_history (user_id : String) : Option (List (Int × Int)) :=
  if user_id = "local" then some ratingHistoryPlaceholder else none

/-- The (calendar day, hour) bucket of a timestamp in seconds, the
`GROUP BY date(reviews.date), strftime('%H', reviews.date)` key of the query
in `PuzzleDatabase::get_user_rating_history`. Timestamps here are
non-negative, where `/` and `%` agree with the calendar computation. -/
def hourBucket (date : Int) : Int × Int :=
  (date / 86400, date % 86400 / 3600)

/-- Insertion of a dated row into a list sorted by date ascending. -/
def insertByDate (x : Int × Int) : List (Int × Int) → List (Int × Int)
  | [] => [x]
  | y :: ys => if x.1 ≤ y.1 then x :: y :: ys else y :: insertByDate x ys

/-- Insertion sort by date ascending, the `ORDER BY datetime(date)` of the
rating-history query. -/
def sortByDate : List (Int × Int) → List (Int × Int)
  | [] => []
  | x :: xs => insertByDate x (sortByDate xs)

/-- The database rating-history query,
`PuzzleDatabase::get_user_rating_history` in `src/db/card.rs`: for the
user's review rows with a non-null `user_rating`, group by (calendar day,
hour) and take `max(user_rating)` (the accompanying date is that of a row
attaining the maximum, as SQLite returns for a bare column next to `max`),
then union the user's current rating stamped `now` and order by date. The
`UNION` duplicate elimination is not modelled; it can only drop exactly
duplicated points. -/
def get_user_rating_history (reviews : List ReviewRow) (user_id : String)
    (current_rating : Int) (now : Int) : List (Int × Int) :=
  let mine := reviews.filter fun r => r.user_id = user_id ∧ r.user_rating.isSome
  let keys := (mine.map fun r => hourBucket r.date).dedup
  let grouped := keys.filterMap fun k =>
    let group := mine.filter fun r => hourBucket r.date = k
    match group.filterMap ReviewRow.user_rating with
    | [] => none
    | v :: vs =>
      let mx := vs.foldl max v
      (group.find? fun r => r.user_rating = some mx).map fun r => (r.date, mx)
  sortByDate (grouped ++ [(now, current_rating)])

/-- A puzzle row, `Puzzle` in `src/db/puzzle.rs`, restricted to the fields
the review-selection and rating logic read. -/
structure Puzzle : Type where
  puzzle_id : String
  rating : Int
  rating_deviation : Int
deriving DecidableEq

/-- One step of `ORDER BY datetime(due) ASC LIMIT 1`: keep the row with the
strictly smaller due time, the earlier row on ties. -/
def minDueStep (acc : Option (Card × Puzzle)) (x : Card × Puzzle) :
    Option (Card × Puzzle) :=
  match acc with
  | none => some x
  | some a => if x.1.due < a.1.due then some x else some a

/-- The next due review, `PuzzleDatabase::get_next_review_due` in
`src/db/card.rs`. The card/puzzle join is modelled as a list of cards each
with its (possibly missing) puzzle row; the query keeps rows with
`due <= time`, `interval >= min_interval.unwrap_or(0)` and a present puzzle,
and returns the first row of minimal due time. -/
def get_next_review_due (rows : List (Card × Option Puzzle)) (time : Int)
    (min_interval : Option Int) : Option (Card × Puzzle) :=
  let min_interval_seconds := min_interval.getD 0
  let filtered := rows.filterMap fun cp =>
    match cp.2 with
    | some p =>
      if cp.1.due ≤ time ∧ min_interval_seconds ≤ cp.1.interval then
        some (cp.1, p)
      else none
    | none => none
  filtered.foldl minDueStep none

/-- The next-review selection, `TacticsService::get_next_review` in
`src/services/tactics_service.rs`: the next review due now (any interval),
or else the next non-learning review due before day end
(`min_interval = INITIAL_INTERVALS.last()`). `time_now` and `day_end` stand
for `Local::now()` and `day_end_datetime()`. -/
def get_next_review (rows : List (Card × Option Puzzle)) (time_now : Int)
    (day_end : Int) : Option (Card × Puzzle) :=
  (get_next_review_due rows time_now none).or
    (get_next_review_due rows day_end (some (INITIAL_INTERVALS.getD 1 0)))

/-- Modelled from the spec: step 5 of `get_next_review` — "Otherwise choose
per `review_order`: `DueTime`: the one with earlier `due`; `PuzzleRating`:
the one whose puzzle has lower `rating`; `Random`: pick `A`." This
definition follows the spec's words, for comparison with `get_next_review`,
which is translated from the source. -/
def specReviewChoice (order : ReviewOrder) (a b : Card × Puzzle) : Card × Puzzle :=
  match order with
  | .DueTime => if a.1.due ≤ b.1.due then a else b
  | .PuzzleRating => if a.2.rating ≤ b.2.rating then a else b
  | .Random => a

/-- Request JSON for `/api/tactics/review`, `ReviewRequest` in
`src/api/tactics.rs`. -/
structure ReviewRequest : Type where
  id : String
  difficulty : Int
  review_count : Int
deriving DecidableEq

/-- State touched by the review endpoint: the stored user row, the user's
sticky next-puzzle pointer, the cards, the puzzles and the reviews table.
The `next_puzzle` field is modelled from the spec: the accessors
`get_user_next_puzzle`/`set_user_next_puzzle` called by the handler are not
under `src/`; per the spec, `User` carries a sticky `next_puzzle?` pointer
which they read and write. -/
structure ApiState : Type where
  user_row : Rating
  next_puzzle : Option String
  cards : List Card
  puzzles : List Puzzle
  reviews : List ReviewRow
deriving DecidableEq

/-- Lookup of a card by puzzle id, `PuzzleDatabase::get_card_by_id`. -/
def findCard (cards : List Card) (id : String) : Option Card :=
  cards.find? fun c => c.id = id

/-- Lookup of a puzzle by id, `PuzzleDatabase::get_puzzle_by_id`. -/
def findPuzzle (puzzles : List Puzzle) (id : String) : Option Puzzle :=
  puzzles.find? fun p => p.puzzle_id = id

/-- Upsert of a card, `PuzzleDatabase::update_or_create_card`
(`INSERT OR REPLACE INTO cards` keyed by `puzzle_id`). -/
def updateOrCreateCard (cards : List Card) (card : Card) : List Card :=
  if (cards.find? fun c => c.id = card.id).isSome then
    cards.map fun c => if c.id = card.id then card else c
  else
    cards ++ [card]

/-- Application of a review, `TacticsService::apply_review` in
`src/services/tactics_service.rs`: review the card, upsert it, and append a
review row stamped with the given user rating. -/
def apply_review (st : ApiState) (user_id : String) (now : Int)
    (user_rating : Rating) (card : Card) (difficulty : Difficulty) : ApiState :=
  let card := card.review now difficulty
  { st with
    cards := updateOrCreateCard st.cards card
    reviews := st.reviews ++ [add_review_for_user
      { user_id := user_id
        puzzle_id := card.id
        difficulty := difficulty
        date := now
        user_rating := some user_rating.rating }] }

/-- The review endpoint, `review` in `src/api/tactics.rs` (POST
`/api/tactics/review`), for the local user. In source order: parse the
difficulty (`none` models `InvalidParameter`), clear the user's saved next
puzzle when it matches the request — this happens before the review-count
guard — fetch the puzzle (`none` models the missing-puzzle error), take the
stored card or a fresh one, return success immediately on a review-count
mismatch, otherwise update the rating (Good-guard included; the
floating-point Glicko-2 output is the argument `computed`) and apply the
review, stamping the review row with the post-update stored rating as the
spec prescribes for the returned `new_rating`. -/
def reviewApiHandler (cfg : SrsConfig) (st : ApiState) (now : Int)
    (request : ReviewRequest) (computed : Rating) : Option ApiState :=
  match Difficulty.from_i64 request.difficulty with
  | none => none
  | some difficulty =>
    let st1 : ApiState :=
      if st.next_puzzle = some request.id then { st with next_puzzle := none } else st
    match findPuzzle st1.puzzles request.id with
    | none => none
    | some _puzzle =>
      let card := (findCard st1.cards request.id).getD (Card.new request.id now cfg)
      if card.review_count ≠ request.review_count then
        some st1
      else
        let row := update_rating_applied st1.user_row difficulty computed
        some (apply_review { st1 with user_row := row } "local" now row card difficulty)

/-- A concrete review of puzzle `00sHx` by the local user. -/
def exampleReview : Review :=
  { user_id := "local", puzzle_id := "00sHx", difficulty := .Good,
    date := 1696600000, user_rating := some 512 }

/-- A concrete mature card for puzzle `00sHx` with seven reviews. -/
def c4Card : Card :=
  { id := "00sHx", due := 0, interval := 86400, review_count := 7,
    ease := 2.5, learning_stage := 2, srs_config := defaultSrsConfig }

/-- A concrete API state whose sticky next puzzle is `00sHx` and whose
stored card for it has `review_count = 7`. -/
def c4State : ApiState :=
  { user_row := ⟨500, 250, 0.06⟩
    next_puzzle := some "00sHx"
    cards := [c4Card]
    puzzles := [{ puzzle_id := "00sHx", rating := 1500, rating_deviation := 50 }]
    reviews := [] }

/-- A review request for `00sHx` carrying the stale expected review count 6. -/
def c4Req : ReviewRequest :=
  { id := "00sHx", difficulty := 2, review_count := 6 }

/-- A card due at time 0 with a short (in-learning) interval. -/
def cardA : Card :=
  { id := "A", due := 0, interval := 600, review_count := 3,
    ease := 2.5, learning_stage := 1, srs_config := defaultSrsConfig }

/-- A card due at time 50 with a week-long interval (not in learning). -/
def cardB : Card :=
  { id := "B", due := 50, interval := 604800, review_count := 9,
    ease := 2.5, learning_stage := 2, srs_config := defaultSrsConfig }

/-- The 2000-rated puzzle of `cardA`. -/
def puzzleA : Puzzle := { puzzle_id := "A", rating := 2000, rating_deviation := 50 }

/-- The 1000-rated puzzle of `cardB`. -/
def puzzleB : Puzzle := { puzzle_id := "B", rating := 1000, rating_deviation := 50 }

/-- A two-card store: `cardA` is due now with a learning interval, `cardB`
is due before day end with a mature interval and a lower-rated puzzle. -/
def c7Rows : List (Card × Option Puzzle) := [(cardA, some puzzleA), (cardB, some puzzleB)]

/-- Helper: both initial intervals are at least ten minutes. -/
lemma initial_getD_ge_600 (n : Nat) (h : n < 2) :
    (600 : Int) ≤ INITIAL_INTERVALS.getD n 0 := by
  match n, h with
  | 0, _ => decide
  | 1, _ => decide

/-- Helper: on a learning card, the `Hard` interval stays within the current
learning-stage interval (it is the old interval clamped below by ten
minutes, and both bounds are at most `INITIAL_INTERVALS[learning_stage]`). -/
lemma next_interval_hard_le (c : Card) (hl : c.in_learning) (h0 : 0 ≤ c.learning_stage) :
    c.next_interval_hard ≤ INITIAL_INTERVALS.getD c.learning_stage.toNat 0 := by
  have hs : c.learning_stage.toNat < 2 := by
    have := hl.1
    omega
  have h600 := initial_getD_ge_600 _ hs
  have hna : Card.next_interval_again c = 600 := rfl
  rw [Card.next_interval_hard, hna]
  exact max_le (le_trans (min_le_left _ _) hl.2) h600

/-- Claim C1: for a card with `in_learning` true, `review(card, now, Easy)`
is claimed to set `learning_stage` to `|INITIAL_INTERVALS|` (2) and yield an
interval of at least `MIN_EASY_INTERVAL`. The interval bound holds, but the
code leaves `learning_stage` unchanged (here 0): `review` re-evaluates
`in_learning` only after overwriting the interval with the new value, which
is at least 4 days, so the `learning_stage = INITIAL_INTERVALS.len()` branch
is unreachable, contradicting the code's own comment that `Easy` should
remove any card from learning. -/
theorem c1_easy_on_learning_card_keeps_stage :
    exampleLearningCard.in_learning ∧
    (exampleLearningCard.review 0 .Easy).learning_stage = 0 ∧
    (exampleLearningCard.review 0 .Easy).learning_stage ≠ 2 ∧
    MIN_EASY_INTERVAL ≤ (exampleLearningCard.review 0 .Easy).interval := by
  refine ⟨?_, ?_, ?_, ?_⟩ <;>
  norm_num [Card.review, Card.next_interval, Card.next_interval_easy,
    Card.next_interval_good, Card.next_interval_again, Card.next_interval_hard,
    Card.in_learning, mul_duration, truncToInt, exampleLearningCard, Card.new,
    defaultSrsConfig, INITIAL_INTERVALS, MIN_EASY_INTERVAL, MAX_INTERVAL]

/-- Claim C2, counterexample: the fresh learning card (stage 0) reviewed
`Hard` does not keep `learning_stage = 0` as the claim states — the code
increments it. -/
theorem c2_counterexample :
    exampleLearningCard.in_learning ∧ exampleLearningCard.learning_stage = 0 ∧
    (exampleLearningCard.review 0 .Hard).learning_stage ≠ 0 := by
  refine ⟨?_, ?_, ?_⟩ <;>
  norm_num [Card.review, Card.next_interval, Card.next_interval_again,
    Card.next_interval_hard, Card.in_learning, exampleLearningCard, Card.new,
    defaultSrsConfig, INITIAL_INTERVALS, MAX_INTERVAL]
  decide

/-- Claim C2, amended: for every card in learning state (with the invariant
`0 ≤ learning_stage`), `review(card, now, Hard)` increments `learning_stage`
by one — after the interval update the card is still within its current
learning-stage interval, so the `learning_stage += 1` branch runs. -/
theorem c2_hard_increments_stage (c : Card) (now : Int)
    (hl : c.in_learning) (h0 : 0 ≤ c.learning_stage) :
    (c.review now .Hard).learning_stage = c.learning_stage + 1 := by
  have h1 : Card.in_learning { c with interval := c.next_interval .Hard, due := now + c.next_interval .Hard } :=
    ⟨hl.1, next_interval_hard_le c hl h0⟩
  simp [Card.review, h1]

/-- Witness for C2's amended theorem at the fresh learning card. -/
theorem c2_hard_increments_stage_witness :
    exampleLearningCard.in_learning ∧ 0 ≤ exampleLearningCard.learning_stage ∧
    (exampleLearningCard.review 0 .Hard).learning_stage =
      exampleLearningCard.learning_stage + 1 :=
  ⟨by decide, by decide, c2_hard_increments_stage exampleLearningCard 0 (by decide) (by decide)⟩

/-- Claim C8: for every card satisfying the invariant
`0 ≤ learning_stage ≤ |INITIAL_INTERVALS|` (and any config and ease),
`next_interval` is monotone in the grade:
`Again ≤ Hard ≤ Good ≤ Easy`. -/
theorem c8_next_interval_monotone (c : Card)
    (h0 : 0 ≤ c.learning_stage) (_h2 : c.learning_stage ≤ 2) :
    c.next_interval .Again ≤ c.next_interval .Hard ∧
    c.next_interval .Hard ≤ c.next_interval .Good ∧
    c.next_interval .Good ≤ c.next_interval .Easy := by
  refine ⟨?_, ?_, ?_⟩
  · exact le_max_right _ _
  · by_cases hl : c.in_learning
    · show c.next_interval_hard ≤ c.next_interval_good
      rw [Card.next_interval_good, if_pos hl]
      exact next_interval_hard_le c hl h0
    · show c.next_interval_hard ≤ c.next_interval_good
      rw [Card.next_interval_good, if_neg hl]
      exact le_max_right _ _
  · exact le_max_right _ _

/-- Witness for C8 at the fresh learning card. -/
theorem c8_next_interval_monotone_witness :
    0 ≤ exampleLearningCard.learning_stage ∧ exampleLearningCard.learning_stage ≤ 2 ∧
    (exampleLearningCard.next_interval .Again ≤ exampleLearningCard.next_interval .Hard ∧
     exampleLearningCard.next_interval .Hard ≤ exampleLearningCard.next_interval .Good ∧
     exampleLearningCard.next_interval .Good ≤ exampleLearningCard.next_interval .Easy) :=
  ⟨by decide, by decide, c8_next_interval_monotone exampleLearningCard (by decide) (by decide)⟩

/-- Helper: a single review floors the ease at `minimum_ease`, because the
ease update is `max(minimum_ease, _)`. -/
lemma review_ease_ge (c : Card) (t : Int) (s : Difficulty) :
    c.srs_config.minimum_ease ≤ (c.review t s).ease := by
  cases s <;> exact le_max_left _ _

/-- Helper: a review never changes the card's SRS config. -/
lemma review_srs_cfg (c : Card) (t : Int) (s : Difficulty) :
    (c.review t s).srs_config = c.srs_config := rfl

/-- Helper: the ease floor after a non-empty review sequence. -/
lemma review_seq_ease (x : Int × Difficulty) (l : List (Int × Difficulty)) :
    ∀ c : Card, c.srs_config.minimum_ease ≤ (c.review_seq (x :: l)).ease := by
  induction l generalizing x with
  | nil => exact fun c => review_ease_ge c x.1 x.2
  | cons y ys ih =>
    intro c
    have := ih y (c.review x.1 x.2)
    rwa [review_srs_cfg] at this

/-- Claim C9: after any single review the ease is at least `minimum_ease`,
and hence after any non-empty sequence of reviews the ease-floor invariant
holds. -/
theorem c9_ease_floor : ∀ c : Card,
    (∀ (t : Int) (s : Difficulty), c.srs_config.minimum_ease ≤ (c.review t s).ease) ∧
    ∀ l : List (Int × Difficulty), l ≠ [] →
      c.srs_config.minimum_ease ≤ (c.review_seq l).ease := by
  intro c
  refine ⟨review_ease_ge c, ?_⟩
  intro l hl
  match l with
  | x :: xs => exact review_seq_ease x xs c

/-- Witness for C9 at the fresh learning card with a one-review sequence. -/
theorem c9_ease_floor_witness :
    ([((0 : Int), Difficulty.Again)] ≠ ([] : List (Int × Difficulty))) ∧
    exampleLearningCard.srs_config.minimum_ease ≤
      (exampleLearningCard.review_seq [((0 : Int), Difficulty.Again)]).ease :=
  ⟨by simp, (c9_ease_floor exampleLearningCard).2 [((0 : Int), Difficulty.Again)] (by simp)⟩

/-- Claim C6: the computed rating is discarded exactly when the grade is
`Good` and the new rating is at most the old one, and under a `Good` grade
the stored rating never decreases. -/
theorem c6_good_guard (row : Rating) (d : Difficulty) (computed : Rating) :
    (update_rating_write row d computed = none ↔
      (d = .Good ∧ computed.rating ≤ row.rating)) ∧
    (d = .Good → row.rating ≤ (update_rating_applied row d computed).rating) := by
  constructor
  · unfold update_rating_write
    by_cases hd : d = .Good
    · subst hd
      by_cases hr : computed.rating > row.rating
      · simp [hr]
      · simp [hr]
        omega
    · simp [hd]
  · intro hd
    subst hd
    unfold update_rating_applied update_rating_write update_user
    by_cases hr : computed.rating > row.rating
    · simp [hr]
      omega
    · simp [hr]

/-- Witness for C6: a `Good` review computing a lower rating (495 vs 500) is
discarded, and the stored rating does not decrease. -/
theorem c6_good_guard_witness :
    update_rating_write ⟨500, 250, 0.06⟩ .Good ⟨495, 245, 0.0599⟩ = none ∧
    (500 : Int) ≤ (update_rating_applied ⟨500, 250, 0.06⟩ .Good ⟨495, 245, 0.0599⟩).rating :=
  ⟨(c6_good_guard ⟨500, 250, 0.06⟩ .Good ⟨495, 245, 0.0599⟩).1.mpr ⟨rfl, by norm_num⟩,
   (c6_good_guard ⟨500, 250, 0.06⟩ .Good ⟨495, 245, 0.0599⟩).2 rfl⟩

/-- Claim C5: a persisted update is claimed to store both the newly computed
deviation and the newly computed volatility. At a concrete persisted update
(`Easy`, so the Good-guard passes) the stored deviation is the new one but
the stored volatility keeps its prior value 0.06 instead of the computed
0.0599 — `update_user`'s SQL never writes `rating_volatility`. The discarded
half of the claim does hold: a discarded `Good` update leaves the whole row
unchanged (final conjunct). -/
theorem c5_volatility_not_persisted :
    update_rating_write ⟨500, 250, 0.06⟩ .Easy ⟨508, 245, 0.0599⟩ ≠ none ∧
    (update_rating_applied ⟨500, 250, 0.06⟩ .Easy ⟨508, 245, 0.0599⟩).deviation = 245 ∧
    (update_rating_applied ⟨500, 250, 0.06⟩ .Easy ⟨508, 245, 0.0599⟩).volatility = 0.06 ∧
    (0.06 : ℚ) ≠ 0.0599 ∧
    update_rating_applied ⟨500, 250, 0.06⟩ .Good ⟨495, 245, 0.0599⟩ = ⟨500, 250, 0.06⟩ := by
  refine ⟨?_, rfl, rfl, ?_, rfl⟩
  · simp [update_rating_write]
  · norm_num

/-- Claim C10: the store/decode round-trip of a review is claimed to return
the original review; in fact `Review::from_row` reads the `user_id` column
into `puzzle_id`, so the decoded `puzzle_id` is the user id `"local"`, not
the stored puzzle id `"00sHx"`, and the round-trip differs from the
original. -/
theorem c10_review_roundtrip_reads_user_id :
    (Review.from_row (add_review_for_user exampleReview)).map Review.puzzle_id = some "local" ∧
    exampleReview.puzzle_id = "00sHx" ∧
    Review.from_row (add_review_for_user exampleReview) ≠ some exampleReview :=
  ⟨rfl, rfl, by decide⟩

/-- Claim C3: `get_rating_history` is claimed to return the per-(day, hour)
maxima of the user's review snapshots with the current rating appended. The
service function returns a fixed 64-point placeholder list no matter what
the reviews or the current rating are; the database query
`get_user_rating_history` (which the service never calls) does implement the
claimed shape — for a user with no reviews and current rating 500 it returns
exactly the single current-rating point, while the service's answer ends at
rating 1700. -/
theorem c3_rating_history_is_placeholder :
    get_rating_history "local" = some ratingHistoryPlaceholder ∧
    get_user_rating_history [] "local" 500 1697100000 = [(1697100000, 500)] ∧
    ratingHistoryPlaceholder.map Prod.snd ≠ [500] ∧
    (ratingHistoryPlaceholder.map Prod.snd).getLast? = some 1700 :=
  ⟨rfl, rfl, by decide, by decide⟩

/-- Claim C4, counterexample: with the stored card at `review_count = 7`, a
request expecting 6, and the user's sticky next puzzle equal to the
requested puzzle, the endpoint returns success — but with the next-puzzle
pointer cleared, because the handler clears it before the review-count
guard. The card list, user row and reviews are untouched. -/
theorem c4_counterexample :
    c4State.next_puzzle = some "00sHx" ∧
    (findCard c4State.cards c4Req.id).map Card.review_count = some 7 ∧
    c4Req.review_count = 6 ∧
    reviewApiHandler defaultSrsConfig c4State 100 c4Req ⟨505, 245, 0.06⟩ =
      some { c4State with next_puzzle := none } ∧
    (none : Option String) ≠ some "00sHx" :=
  ⟨rfl, rfl, rfl, rfl, by decide⟩

/-- Claim C4, amended: on a review-count mismatch (with a parseable
difficulty and an existing puzzle) the endpoint returns success and leaves
the cards, the user row and the reviews unchanged; the next-puzzle pointer
is cleared when it equals the request's puzzle id (the clear runs before the
guard) and is unchanged otherwise. -/
theorem c4_mismatch_frame (cfg : SrsConfig) (st : ApiState) (now : Int)
    (req : ReviewRequest) (computed : Rating) (c : Card)
    (hd : (Difficulty.from_i64 req.difficulty).isSome)
    (hp : (findPuzzle st.puzzles req.id).isSome)
    (hc : findCard st.cards req.id = some c)
    (hm : c.review_count ≠ req.review_count) :
    reviewApiHandler cfg st now req computed =
      some { st with next_puzzle := if st.next_puzzle = some req.id then none
                                    else st.next_puzzle } := by
  obtain ⟨d, hd'⟩ := Option.isSome_iff_exists.mp hd
  obtain ⟨p, hp'⟩ := Option.isSome_iff_exists.mp hp
  by_cases hn : st.next_puzzle = some req.id
  · simp [reviewApiHandler, hd', hn, hp', hc, hm]
  · simp [reviewApiHandler, hd', hn, hp', hc, hm]

/-- Witness for C4's amended theorem at the concrete mismatch state. -/
theorem c4_mismatch_frame_witness :
    (Difficulty.from_i64 c4Req.difficulty).isSome ∧
    (findPuzzle c4State.puzzles c4Req.id).isSome ∧
    findCard c4State.cards c4Req.id = some c4Card ∧
    c4Card.review_count ≠ c4Req.review_count ∧
    reviewApiHandler defaultSrsConfig c4State 100 c4Req ⟨505, 245, 0.06⟩ =
      some { c4State with next_puzzle := if c4State.next_puzzle = some c4Req.id then none
                                         else c4State.next_puzzle } :=
  ⟨by decide, by decide, rfl, by decide,
   c4_mismatch_frame defaultSrsConfig c4State 100 c4Req ⟨505, 245, 0.06⟩ c4Card
     (by decide) (by decide) rfl (by decide)⟩

/-- Helper: a fold of `minDueStep` that yields a row yields either the
accumulator or a list member, and its due time is a lower bound for the
accumulator and every list member. -/
lemma foldl_minDueStep_spec :
    ∀ (l : List (Card × Puzzle)) (acc : Option (Card × Puzzle)) (r : Card × Puzzle),
      l.foldl minDueStep acc = some r →
      (acc = some r ∨ r ∈ l) ∧ (∀ a, acc = some a → r.1.due ≤ a.1.due) ∧
        ∀ y ∈ l, r.1.due ≤ y.1.due := by
  intro l
  induction l with
  | nil =>
    intro acc r h
    simp at h
    subst h
    refine ⟨Or.inl rfl, ?_, by simp⟩
    intro a ha
    cases ha
    exact le_refl _
  | cons x xs ih =>
    intro acc r h
    rw [List.foldl_cons] at h
    have hrec := ih (minDueStep acc x) r h
    match acc with
    | none =>
      have hstep : minDueStep none x = some x := rfl
      rw [hstep] at hrec
      obtain ⟨hmem, hmin, hall⟩ := hrec
      have hrx : r.1.due ≤ x.1.due := hmin x rfl
      refine ⟨Or.inr ?_, ?_, ?_⟩
      · rcases hmem with h1 | h1
        · cases h1
          exact List.mem_cons_self _ _
        · exact List.mem_cons_of_mem _ h1
      · intro a ha
        cases ha
      · intro y hy
        rcases List.mem_cons.mp hy with h1 | h1
        · subst h1
          exact hrx
        · exact hall y h1
    | some a =>
      by_cases hlt : x.1.due < a.1.due
      · have hstep : minDueStep (some a) x = some x := by
          simp [minDueStep, hlt]
        rw [hstep] at hrec
        obtain ⟨hmem, hmin, hall⟩ := hrec
        have hrx : r.1.due ≤ x.1.due := hmin x rfl
        refine ⟨Or.inr ?_, ?_, ?_⟩
        · rcases hmem with h1 | h1
          · cases h1
            exact List.mem_cons_self _ _
          · exact List.mem_cons_of_mem _ h1
        · intro a' ha'
          cases ha'
          exact le_trans hrx (le_of_lt hlt)
        · intro y hy
          rcases List.mem_cons.mp hy with h1 | h1
          · subst h1
            exact hrx
          · exact hall y h1
      · have hstep : minDueStep (some a) x = some a := by
          simp [minDueStep, hlt]
        rw [hstep] at hrec
        obtain ⟨hmem, hmin, hall⟩ := hrec
        have hra : r.1.due ≤ a.1.due := hmin a rfl
        refine ⟨?_, ?_, ?_⟩
        · rcases hmem with h1 | h1
          · exact Or.inl h1
          · exact Or.inr (List.mem_cons_of_mem _ h1)
        · intro a' ha'
          cases ha'
          exact hra
        · intro y hy
          rcases List.mem_cons.mp hy with h1 | h1
          · subst h1
            exact le_trans hra (le_of_not_lt hlt)
          · exact hall y h1

/-- Helper: a row returned by `get_next_review_due` is a stored row passing
the query's conditions, and its due time is minimal among all stored rows
passing them. -/
lemma get_next_review_due_some (rows : List (Card × Option Puzzle)) (time : Int)
    (mi : Option Int) (r : Card × Puzzle)
    (h : get_next_review_due rows time mi = some r) :
    ((r.1, some r.2) ∈ rows ∧ r.1.due ≤ time ∧ mi.getD 0 ≤ r.1.interval) ∧
      ∀ cp ∈ rows, ∀ p : Puzzle, cp.2 = some p → cp.1.due ≤ time →
        mi.getD 0 ≤ cp.1.interval → r.1.due ≤ cp.1.due := by
  rw [get_next_review_due] at h
  obtain ⟨hmem, _, hall⟩ := foldl_minDueStep_spec _ none r h
  rcases hmem with h1 | h1
  · cases h1
  constructor
  · obtain ⟨cp, hcp, hf⟩ := List.mem_filterMap.mp h1
    split at hf
    · split at hf
      · rename_i c p heq hcond
        cases hf
        rw [← heq]
        exact ⟨hcp, hcond⟩
      · cases hf
    · cases hf
  · intro cp hcp p hp hdue hint
    refine hall (cp.1, p) (List.mem_filterMap.mpr ⟨cp, hcp, ?_⟩)
    simp only [hp]
    rw [if_pos ⟨hdue, hint⟩]

/-- Claim C7, counterexample: on a store where the due-now query returns
`cardA` (puzzle rated 2000) and the due-today non-learning query returns
`cardB` (puzzle rated 1000), `get_next_review` returns `cardA` regardless of
the configured order, while the spec's `PuzzleRating` choice is `cardB` —
the code never consults `review_order` when both sub-queries produce a
card. -/
theorem c7_counterexample :
    get_next_review_due c7Rows 100 none = some (cardA, puzzleA) ∧
    get_next_review_due c7Rows 200 (some (INITIAL_INTERVALS.getD 1 0)) = some (cardB, puzzleB) ∧
    get_next_review c7Rows 100 200 = some (cardA, puzzleA) ∧
    specReviewChoice .PuzzleRating (cardA, puzzleA) (cardB, puzzleB) = (cardB, puzzleB) ∧
    puzzleA ≠ puzzleB :=
  ⟨rfl, rfl, rfl, rfl, by decide⟩

/-- Claim C7, amended: whenever both sub-queries return a card,
`get_next_review` returns the due-now one; this coincides with the spec's
`DueTime` choice, since the due-now card's due time never exceeds the other
card's (the due-now query minimizes due over a set containing every row due
at or before `now`). -/
theorem c7_due_now_wins (rows : List (Card × Option Puzzle)) (now day_end : Int)
    (a b : Card × Puzzle)
    (ha : get_next_review_due rows now none = some a)
    (hb : get_next_review_due rows day_end (some (INITIAL_INTERVALS.getD 1 0)) = some b) :
    get_next_review rows now day_end = some a ∧ a.1.due ≤ b.1.due := by
  constructor
  · rw [get_next_review, ha]
    rfl
  · obtain ⟨⟨hamem, hadue, _⟩, hamin⟩ := get_next_review_due_some rows now none a ha
    obtain ⟨⟨hbmem, hbdue, hbint⟩, _⟩ :=
      get_next_review_due_some rows day_end (some (INITIAL_INTERVALS.getD 1 0)) b hb
    by_cases hbn : b.1.due ≤ now
    · have h0 : (0 : Int) ≤ b.1.interval := by
        have : (86400 : Int) ≤ b.1.interval := hbint
        omega
      exact hamin (b.1, some b.2) hbmem b.2 rfl hbn h0
    · exact le_trans hadue (le_of_not_le hbn)

/-- Witness for C7's amended theorem on the two-card store. -/
theorem c7_due_now_wins_witness :
    get_next_review_due c7Rows 100 none = some (cardA, puzzleA) ∧
    get_next_review_due c7Rows 200 (some (INITIAL_INTERVALS.getD 1 0)) = some (cardB, puzzleB) ∧
    (get_next_review c7Rows 100 200 = some (cardA, puzzleA) ∧
      (cardA, puzzleA).1.due ≤ (cardB, puzzleB).1.due) :=
  ⟨rfl, rfl, c7_due_now_wins c7Rows 100 200 (cardA, puzzleA) (cardB, puzzleB) rfl rfl⟩

end BetterTactics
